import Mathlib

/-!
Shallow embedding of the vetis HTTP server (crate `vetis`, directory
`src/vetis/src`) and proofs about its request datapath.

Conventions of the embedding:
* Rust functions that may panic are modelled with an explicit `crash`
  outcome; `Result<T, VetisError>` becomes the `err`/`ok` outcomes.
* The filesystem, the external regex crate, the external MIME table and
  the upstream HTTP client are out-of-scope collaborators of the crate;
  they are passed in as an explicit `Env` of oracle functions.
* `u16`/`u64` values are `Nat` with explicit bounds where the source
  checks them (`str::parse::<u64>` fails above `2^64 - 1`).
-/

namespace Vetis

/-! ### Error taxonomy

From `src/vetis/src/errors.rs` together with the constructors used by
`src/vetis/src/server/path.rs` (`FileError::{NotFound, InvalidRange}`,
`VirtualHostError::{File, Auth, Handler}`, `HandlerError::{Uri, Handler}`).
-/

inductive FileError
  | notFound
  | invalidRange
  deriving DecidableEq

inductive HandlerError
  | uriEmpty (msg : String)
  | handlerEmpty (msg : String)
  deriving DecidableEq

inductive VirtualHostError
  | noVirtualHosts
  | invalidPath (msg : String)
  | proxy (msg : String)
  | file (e : FileError)
  | auth (msg : String)
  | handler (e : HandlerError)
  deriving DecidableEq

inductive VetisError
  | config (msg : String)
  | bind (msg : String)
  | start (msg : String)
  | stop (msg : String)
  | handler (msg : String)
  | tls (msg : String)
  | noInstances
  | virtualHost (e : VirtualHostError)
  deriving DecidableEq

/-! ### Responses and bodies

`VetisBody` (lib.rs) is either an in-memory byte body (`body_from_text`)
or a streaming body reading an open file from its current seek position
(`body_from_file`); we record the path and the offset the file handle
was seeked to.
-/

inductive VetisBody
  | text (s : String)
  | fileFrom (path : String) (offset : Nat)
  deriving DecidableEq

structure Response where
  status : Nat
  headers : List (String × String)
  body : VetisBody
  deriving DecidableEq

/-- Result of running a piece of Rust code that returns
`Result<Response, VetisError>` and may panic: `crash` is a panic
(`unwrap` on `None`/`Err`, or `todo!()`), `err` is `Err`, `ok` is `Ok`. -/
inductive Outcome
  | crash
  | err (e : VetisError)
  | ok (r : Response)
  deriving DecidableEq

/-! ### String helpers (Rust `str` methods used by the source) -/

/-- `str::split_once(sep)` for a one-character separator: split at the
first occurrence, `none` when the separator does not occur. -/
def splitOnceList (sep : Char) : List Char → Option (List Char × List Char)
  | [] => none
  | c :: cs =>
    if c = sep then some ([], cs)
    else
      match splitOnceList sep cs with
      | none => none
      | some (l, r) => some (c :: l, r)

def splitOnce (s : String) (sep : Char) : Option (String × String) :=
  match splitOnceList sep s.toList with
  | none => none
  | some (l, r) => some (⟨l⟩, ⟨r⟩)

/-- `str::strip_prefix`: `stripPre s pre` removes `pre` from the front of
`s`, `none` when `s` does not start with `pre`. -/
def stripPreList : List Char → List Char → Option (List Char)
  | [], s => some s
  | _ :: _, [] => none
  | p :: ps, c :: cs => if p = c then stripPreList ps cs else none

def stripPre (s pre : String) : Option String :=
  match stripPreList pre.toList s.toList with
  | none => none
  | some r => some ⟨r⟩

/-- `pre` is a prefix of `s` (the ancestor relation of the path trie). -/
def isPre (pre s : String) : Bool :=
  (stripPre s pre).isSome

/-- Value of a decimal digit string, `none` on a non-digit. -/
def parseDigits : List Char → Nat → Option Nat
  | [], acc => some acc
  | c :: cs, acc =>
    if c.isDigit then parseDigits cs (acc * 10 + (c.toNat - 48)) else none

/-- `str::parse::<u64>`: optional leading `+`, at least one digit, all
digits, value below `2^64`. -/
def parseU64 (s : String) : Option Nat :=
  let cs := match s.toList with
    | '+' :: rest => rest
    | cs => cs
  if cs.isEmpty then none
  else
    match parseDigits cs 0 with
    | none => none
    | some v => if v < 2 ^ 64 then some v else none

/-! ### Environment: filesystem / regex / MIME / upstream oracles -/

/-- `std::fs::Metadata` as consumed by the source: the length, and the
last-modified date already formatted by `utils::date::format_date`
(`none` models `metadata.modified()` returning `Err`). -/
structure FileMeta where
  len : Nat
  modified : Option String
  deriving DecidableEq

structure Env where
  /-- `Path::exists` -/
  fileExists : String → Bool
  /-- `Path::is_dir` -/
  isDir : String → Bool
  /-- `File::open(..).is_ok()` -/
  openOk : String → Bool
  /-- `metadata()` for a path, `none` when it returns `Err` -/
  meta : String → Option FileMeta
  /-- `file.seek(SeekFrom::Start(start)).is_ok()` -/
  seekOk : String → Nat → Bool
  /-- `minimime::lookup_by_filename` content type -/
  mime : String → Option String
  /-- `Regex::new(pattern).is_ok()` -/
  regexOk : String → Bool
  /-- `regex.is_match(text)` for `(pattern, text)` -/
  extMatch : String → String → Bool
  /-- `HeaderName::from_bytes(k).is_ok()` for a default header name -/
  validHeaderName : String → Bool
  /-- `HeaderValue::from_str(v).is_ok()` for a default header value -/
  validHeaderValue : String → Bool
  /-- upstream client `execute` for the proxy path: url, method, headers;
  `Except.error` is an upstream error message -/
  upstream : String → String → List (String × String) → Except String Response

/-- The last character of a string is `/`. -/
def endsSlash (s : String) : Bool :=
  match s.toList.getLast? with
  | some c => c = '/'
  | none => false

/-- `PathBuf::join` for the relative/absolute cases arising here. -/
def pathJoin (dir sub : String) : String :=
  if isPre "/" sub then sub
  else if endsSlash dir then dir ++ sub
  else dir ++ "/" ++ sub

/-! ### `StaticPath::serve_file` (path.rs lines 162-226) -/

/-- The `Range` header parsing inside `serve_file`: `split_once("=")`
and `split_once("-")` and both `parse::<u64>()` calls are `unwrap`ed,
so a malformed header panics; a unit other than `bytes` is
`FileError::InvalidRange`. The payload of `ok` is the pair
`(start, end)`; the `Response` type parameter is never used. -/
inductive RangeParse
  | crash
  | errUnit
  | bounds (start stop : Nat)
  deriving DecidableEq

def parseRangeHeader (r : String) : RangeParse :=
  match splitOnce r '=' with
  | none => .crash
  | some (unit, rest) =>
    if unit ≠ "bytes" then .errUnit
    else
      match splitOnce rest '-' with
      | none => .crash
      | some (s, e) =>
        match parseU64 s, parseU64 e with
        | some start, some stop => .bounds start stop
        | _, _ => .crash

/-- The `200 OK` full-file response built at the end of `serve_file`:
`Accept-Ranges: bytes`, `Content-Length: <size>`, body streaming the
open file (offset 0 unless a successful seek moved it). -/
def fullFileResponse (file : String) (filesize : Nat) : Response :=
  ⟨200, [("accept-ranges", "bytes"), ("content-length", toString filesize)],
    .fileFrom file 0⟩

def resp416 : Response := ⟨416, [], .text ""⟩

def resp206 (file : String) (start : Nat) : Response :=
  ⟨206, [], .fileFrom file start⟩

/-- `serve_file`: open the file (else `FileError::NotFound`), take the
length from `metadata()` (0 on error), then, when a `Range` header is
present, parse it; `start > end || start >= filesize` is 416,
`start < end && end < filesize` with a successful seek is 206 from
`start`, and every other parsed range falls through to the plain 200
full-file response. -/
def serveFile (env : Env) (file : String) (range : Option String) : Outcome :=
  if env.openOk file then
    let filesize := ((env.meta file).map FileMeta.len).getD 0
    match range with
    | some r =>
      match parseRangeHeader r with
      | .crash => .crash
      | .errUnit => .err (.virtualHost (.file .invalidRange))
      | .bounds start stop =>
        if start > stop ∨ start ≥ filesize then .ok resp416
        else if start < stop ∧ stop < filesize then
          if env.seekOk file start then .ok (resp206 file start)
          else .ok (fullFileResponse file filesize)
        else .ok (fullFileResponse file filesize)
    | none => .ok (fullFileResponse file filesize)
  else .err (.virtualHost (.file .notFound))

/-! ### `StaticPath::serve_metadata` (path.rs lines 250-305) -/

/-- Split a character list on a separator (the semantics of
`str::split`). -/
def splitChars (sep : Char) : List Char → List (List Char)
  | [] => [[]]
  | c :: cs =>
    match splitChars sep cs with
    | [] => [[]]
    | g :: gs => if c = sep then [] :: g :: gs else (c :: g) :: gs

/-- `Path::file_name`: the final component of the path, `none` when the
path ends in `..` or has no final component. -/
def fileName (p : String) : Option String :=
  match (splitChars '/' p.toList).getLast? with
  | none => none
  | some s => if s = [] ∨ s = ['.', '.'] then none else some ⟨s⟩

/-- `serve_metadata`: on metadata success build `Content-Length`,
`Last-Modified` (panicking via `todo!()` when `modified()` errs), and
`Content-Type` when the MIME table knows the file name (panicking via
`todo!()` when the path has no file name); respond `200` with those
headers and an empty body. Metadata failure is `FileError::NotFound`. -/
def serveMetadata (env : Env) (file : String) : Outcome :=
  match env.meta file with
  | none => .err (.virtualHost (.file .notFound))
  | some m =>
    match m.modified with
    | none => .crash
    | some date =>
      match fileName file with
      | none => .crash
      | some fname =>
        let ctype := match env.mime fname with
          | some ct => [("content-type", ct)]
          | none => []
        .ok ⟨200,
          [("content-length", toString m.len), ("last-modified", date)] ++ ctype,
          .text ""⟩

/-! ### Requests -/

/-- A header value as seen through `HeaderValue::to_str()`:
`invalid` models a value that is not valid UTF-8 / visible ASCII. -/
inductive HdrVal
  | valid (s : String)
  | invalid
  deriving DecidableEq

structure Request where
  /-- `request.method()` as its canonical name (`GET`, `HEAD`, ...) -/
  method : String
  /-- `request.uri().path()` -/
  path : String
  /-- the `Host` header, when present -/
  host : Option HdrVal
  /-- `request.uri().authority().host()`, when the target has one -/
  authority : Option String
  /-- remaining headers (lower-cased names, valid values) -/
  headers : List (String × String)

def headerLookup (headers : List (String × String)) (name : String) :
    Option String :=
  match headers.find? (fun h => h.1 = name) with
  | none => none
  | some h => some h.2

/-! ### Static path configuration and `StaticPath::handle`
(path.rs lines 316-408) -/

structure StaticPathConfig where
  uri : String
  extensions : String
  directory : String
  indexFiles : Option (List String)
  /-- `auth.authenticate(headers)`: `none` models `Err`, which
  `unwrap_or(false)` turns into a denial -/
  auth : Option (List (String × String) → Option Bool)

/-- `serve_index_file`: serve the first configured index file that
exists under `directory`, else `FileError::NotFound`. -/
def serveIndexFile (env : Env) (cfg : StaticPathConfig) (directory : String) :
    Outcome :=
  match cfg.indexFiles with
  | none => .err (.virtualHost (.file .notFound))
  | some ifs =>
    match ifs.find? (fun f => env.fileExists (pathJoin directory f)) with
    | none => .err (.virtualHost (.file .notFound))
    | some f => serveFile env (pathJoin directory f) none

/-- The tail of `StaticPath::handle` after the index-file logic decided
to serve the candidate file itself: `HEAD` goes to `serve_metadata`,
otherwise the `Range` header (if any) is read and `serve_file` runs. -/
def serveCandidate (env : Env) (req : Request) (file : String) : Outcome :=
  if req.method = "HEAD" then serveMetadata env file
  else serveFile env file (headerLookup req.headers "range")

/-- `StaticPath::handle`: check the auth hook, strip one leading `/`
from the tail, join it to the directory; with `index_files` configured
serve an index file when the candidate is missing and the extension
regex does not match (or when the candidate is a directory); without
`index_files` a missing candidate is `FileError::NotFound`. -/
def staticHandle (env : Env) (cfg : StaticPathConfig) (req : Request)
    (tail : String) : Outcome :=
  let authorized := match cfg.auth with
    | none => true
    | some f => (f req.headers).getD false
  if !authorized then .err (.virtualHost (.auth "Unauthorized"))
  else
    let uri := (stripPre tail "/").getD tail
    let file := pathJoin cfg.directory uri
    if cfg.indexFiles.isSome then
      if !env.fileExists file then
        if env.regexOk cfg.extensions then
          if !env.extMatch cfg.extensions uri then
            serveIndexFile env cfg cfg.directory
          else serveCandidate env req file
        else serveCandidate env req file
      else if env.isDir file then serveIndexFile env cfg file
      else serveCandidate env req file
    else
      if !env.fileExists file then .err (.virtualHost (.file .notFound))
      else serveCandidate env req file

/-! ### Host paths (path.rs `HostPath`) -/

/-- The closed variant over handler / static / proxy paths. A user
handler is an opaque function from the request to an outcome. -/
inductive HostPath
  | handlerPath (uri : String) (h : Request → Outcome)
  | staticPath (cfg : StaticPathConfig)
  | proxyPath (uri : String) (target : String)

def HostPath.uri : HostPath → String
  | .handlerPath u _ => u
  | .staticPath cfg => cfg.uri
  | .proxyPath u _ => u

/-- `ProxyPath::handle`: the upstream URL is `target ++ tail`; the
method and headers are forwarded; an upstream error becomes
`VirtualHostError::Proxy(msg)`, a success copies status, headers and
body. -/
def proxyHandle (env : Env) (target : String) (req : Request)
    (tail : String) : Outcome :=
  match env.upstream (target ++ tail) req.method req.headers with
  | .error msg => .err (.virtualHost (.proxy msg))
  | .ok r => .ok r

def HostPath.handle (env : Env) : HostPath → Request → String → Outcome
  | .handlerPath _ h, req, _ => h req
  | .staticPath cfg, req, tail => staticHandle env cfg req tail
  | .proxyPath _ target, req, tail => proxyHandle env target req tail

/-! ### Virtual hosts (virtual_host.rs) -/

structure VirtualHostConfig where
  hostname : String
  /-- `u16` -/
  port : Nat
  defaultHeaders : Option (List (String × String))
  /-- `HashMap<u16, String>` of status code to page path -/
  statusPages : Option (List (Nat × String))
  security : Bool

/-- A virtual host owns its config and a trie of paths keyed by
`path.uri()` (`add_path` inserts under that key, replacing any prior
entry with the same key). -/
structure VirtualHost where
  config : VirtualHostConfig
  paths : List HostPath

def addPath (vh : VirtualHost) (p : HostPath) : VirtualHost :=
  { vh with paths := (vh.paths.filter (fun q => q.uri ≠ p.uri)) ++ [p] }

/-- One step of the `radix_trie` `get_ancestor_value` scan: keep the
entry whose key (= `uri`) is a prefix of the query and is longest. -/
def ancStep (q : String) (acc : Option HostPath) (p : HostPath) :
    Option HostPath :=
  if isPre p.uri q then
    match acc with
    | none => some p
    | some b => if b.uri.length < p.uri.length then some p else some b
  else acc

def ancScan (q : String) (acc : Option HostPath) :
    List HostPath → Option HostPath
  | [] => acc
  | p :: ps => ancScan q (ancStep q acc p) ps

/-- `Trie::get_ancestor_value`: the entry whose key is the longest
prefix of the query path, if any. -/
def getAncestorValue (paths : List HostPath) (q : String) : Option HostPath :=
  ancScan q none paths

/-- `HashMap::get` on the status-pages map (keys are unique). -/
def pageLookup (pages : List (Nat × String)) (status : Nat) : Option String :=
  match pages.find? (fun p => p.1 = status) with
  | none => none
  | some p => some p.2

/-- `http::StatusCode::from_u16` succeeds exactly on 100..=999. -/
def validStatus (s : Nat) : Bool :=
  100 ≤ s ∧ s ≤ 999

/-- `VirtualHost::serve_status_page` (virtual_host.rs lines 172-194):
`StatusCode::from_u16(status).unwrap()` panics on an invalid code;
then, when a page is configured for the code and the file exists and
opens, respond `200` streaming its bytes; in every other case respond
with the requested status code and the plain text `Not found`. -/
def serveStatusPage (env : Env) (vh : VirtualHost) (status : Nat) : Outcome :=
  if !validStatus status then .crash
  else
    let fallback : Response := ⟨status, [], .text "Not found"⟩
    match vh.config.statusPages with
    | some pages =>
      match pageLookup pages status with
      | some page =>
        if env.fileExists page then
          if env.openOk page then .ok ⟨200, [], .fileFrom page 0⟩
          else .ok fallback
        else .ok fallback
      | none => .ok fallback
    | none => .ok fallback

/-- The per-entry part of `VirtualHost::route`: strip the matched
prefix from the request path (keeping the whole path when stripping
fails), run the path handler, and turn an `InvalidPath` error into the
rendered 404 status page; every other error propagates. -/
def dispatchEntry (env : Env) (vh : VirtualHost) (req : Request)
    (p : HostPath) : Outcome :=
  let tail := (stripPre req.path p.uri).getD req.path
  match p.handle env req tail with
  | .crash => .crash
  | .ok r => .ok r
  | .err e =>
    match e with
    | .virtualHost (.invalidPath _) => serveStatusPage env vh 404
    | _ => .err e

/-- `VirtualHost::route` (virtual_host.rs lines 196-241): longest
prefix ancestor lookup over the path trie; no ancestor is
`404 "Not Found"`. -/
def route (env : Env) (vh : VirtualHost) (req : Request) : Outcome :=
  match getAncestorValue vh.paths req.path with
  | none => .ok ⟨404, [], .text "Not Found"⟩
  | some p => dispatchEntry env vh req p

/-! ### Request dispatcher (`process_request`, tcp.rs lines 265-353) -/

/-- The effective authority: a decodable `Host` header with any `:port`
suffix stripped; `localhost` for an undecodable header; else the host
of the request-target authority; else `localhost`. The `else` branch
yielding `400` in the source is unreachable, so this is never `none`. -/
def effectiveHost (req : Request) : Option String :=
  match req.host with
  | some (.valid s) =>
    some (((splitOnce s ':').map Prod.fst).getD s)
  | some .invalid => some "localhost"
  | none =>
    match req.authority with
    | some a => some a
    | none => some "localhost"

/-- The registry `HashMap<(Arc<str>, u16), VirtualHost>`; keys unique,
`Vetis::add_virtual_host` inserts replacing any prior entry. -/
def VHosts := List ((String × Nat) × VirtualHost)

def vhLookup (m : VHosts) (host : String) (port : Nat) : Option VirtualHost :=
  match m.find? (fun e => e.1.1 = host ∧ e.1.2 = port) with
  | none => none
  | some e => some e.2

def addVirtualHost (m : VHosts) (vh : VirtualHost) : VHosts :=
  ((vh.config.hostname, vh.config.port), vh) ::
    m.filter (fun e => ¬(e.1.1 = vh.config.hostname ∧ e.1.2 = vh.config.port))

/-- `HeaderMap::insert`: replace the value under the name, appending
when absent. -/
def headerInsert (headers : List (String × String)) (k v : String) :
    List (String × String) :=
  if (headers.find? (fun h => h.1 = k)).isSome then
    headers.map (fun h => if h.1 = k then (k, v) else h)
  else headers ++ [(k, v)]

/-- Splicing the per-host `default_headers` into the response: names or
values that fail header validation are logged and skipped. -/
def spliceDefaultHeaders (env : Env) (cfg : VirtualHostConfig)
    (r : Response) : Response :=
  match cfg.defaultHeaders with
  | none => r
  | some hs =>
    { r with
      headers := hs.foldl
        (fun acc h =>
          if env.validHeaderName h.1 then
            if env.validHeaderValue h.2 then headerInsert acc h.1 h.2
            else acc
          else acc)
        r.headers }

/-- What `process_request` does once a virtual host was found: route,
then splice default headers into a successful response; route errors
propagate out of the service function (becoming a connection-level
failure in the HTTP driver). -/
def afterRoute (env : Env) (vh : VirtualHost) (routed : Outcome) : Outcome :=
  match routed with
  | .crash => .crash
  | .err e => .err e
  | .ok r => .ok (spliceDefaultHeaders env vh.config r)

/-- `process_request`: derive the effective authority, look up the
virtual host under `(authority, listener port)`, then route; when no
virtual host matches, `404 "Virtual host not found"`. -/
def processRequest (env : Env) (vhosts : VHosts) (port : Nat)
    (req : Request) : Outcome :=
  match effectiveHost req with
  | some host =>
    match vhLookup vhosts host port with
    | some vh => afterRoute env vh (route env vh req)
    | none => .ok ⟨404, [], .text "Virtual host not found"⟩
  | none => .ok ⟨400, [], .text "Host not found in request"⟩

/-! ### Stream listener per-connection handling
(`TcpListener::handle_connections`, tcp.rs lines 146-263) -/

inductive Protocol
  | http1
  | http2
  | http3
  deriving DecidableEq

/-- The connection driver the listener hands the stream to, selected by
the listener's configured protocol (`Protocol::Http3` is left to the
UDP listener: no driver runs on the TCP side). -/
inductive Driver
  | http1Conn
  | http2Conn
  | noTcpDriver
  deriving DecidableEq

def driverOf : Protocol → Driver
  | .http1 => .http1Conn
  | .http2 => .http2Conn
  | .http3 => .noTcpDriver

/-- One accepted TCP connection as the listener observes it. -/
structure Conn where
  /-- `stream.set_nodelay(true)` succeeded -/
  nodelayOk : Bool
  /-- the bytes the client has sent so far (what `peek` can see) -/
  avail : List Nat
  /-- the TLS handshake would succeed on this stream -/
  handshakeOk : Bool

/-- What happens to one accepted connection in the accept loop. -/
inductive ConnOutcome
  /-- the `unwrap` on `peek_exact` panicked -/
  | crash
  /-- `set_nodelay` failed: logged, `continue` -/
  | droppedNodelay
  /-- TLS handshake failed: logged, `continue` -/
  | droppedHandshake
  /-- the stream was handed to a driver (`tls` is whether the TLS
  branch was taken) -/
  | served (tls : Bool) (d : Driver)
  deriving DecidableEq

def listStarts : List Nat → List Nat → Bool
  | [], _ => true
  | _ :: _, [] => false
  | p :: ps, c :: cs => p = c && listStarts ps cs

/-- Per accepted connection: set `TCP_NODELAY` (on failure log and
continue); `peek_exact` sixteen bytes, `unwrap`ing the result — a short
read panics; take the TLS branch iff the peeked bytes start with
`0x16 0x03`, performing the handshake there (on failure log and
continue); in both branches hand the stream to the driver selected by
the configured protocol. -/
def handleConn (proto : Protocol) (c : Conn) : ConnOutcome :=
  if !c.nodelayOk then .droppedNodelay
  else if c.avail.length < 16 then .crash
  else
    let peeked := c.avail.take 16
    let isTls := listStarts [0x16, 0x03] peeked
    if isTls then
      if c.handshakeOk then .served true (driverOf proto)
      else .droppedHandshake
    else .served false (driverOf proto)

/-! ### Server lifecycle (`Vetis::start` / `Vetis::stop`, lib.rs lines
405-467; `HttpServer::stop`, server/http.rs; `TcpListener::stop`,
tcp.rs lines 132-142) -/

/-- A listener with its optional accept-loop task handle
(`TcpListener.task`). -/
structure ListenerSt where
  task : Option Unit
  deriving DecidableEq

/-- `HttpServer`: the listeners materialised by `start`. -/
structure HttpServerSt where
  listeners : List ListenerSt
  deriving DecidableEq

/-- The `Vetis` server value: the number of registered virtual hosts,
the number of configured listeners, and the optional running
`HttpServer` instance. -/
structure VetisSt where
  nVhosts : Nat
  nListeners : Nat
  inst : Option HttpServerSt
  deriving DecidableEq

inductive LifeRes
  | ok
  | fail (e : VetisError)
  deriving DecidableEq

/-- `Vetis::start`: with an empty registry fail with `NoVirtualHosts`;
otherwise materialise one listener per `ListenerConfig`, `listen()` on
each (spawning its accept-loop task) and store the instance. -/
def vetisStart (s : VetisSt) : VetisSt × LifeRes :=
  if s.nVhosts = 0 then (s, .fail (.virtualHost .noVirtualHosts))
  else
    ({ s with inst := some ⟨List.replicate s.nListeners ⟨some ()⟩⟩ }, .ok)

/-- `TcpListener::stop`: `task.take()` and cancel it when present;
always `Ok`. -/
def listenerStop (_l : ListenerSt) : ListenerSt × LifeRes :=
  (⟨none⟩, .ok)

/-- `HttpServer::stop`: stop every listener (each returns `Ok`). -/
def serverStop (h : HttpServerSt) : HttpServerSt × LifeRes :=
  (⟨h.listeners.map (fun l => (listenerStop l).1)⟩, .ok)

/-- `Vetis::stop`: with no instance fail with `NoInstances`; otherwise
stop the instance. The instance is kept in `self.instance` afterwards —
`stop` does not reset it to `None`. -/
def vetisStop (s : VetisSt) : VetisSt × LifeRes :=
  match s.inst with
  | none => (s, .fail .noInstances)
  | some h =>
    let r := serverStop h
    ({ s with inst := some r.1 }, r.2)

/-! ### Derived views used by the theorems -/

/-- The status-page path configured for a code, if any. -/
def statusPageOf (vh : VirtualHost) (status : Nat) : Option String :=
  match vh.config.statusPages with
  | none => none
  | some pages => pageLookup pages status

/-- The HTTP status of a successful outcome. -/
def statusOf : Outcome → Option Nat
  | .ok r => some r.status
  | _ => none

/-- Whether the accept loop took the TLS branch on a connection (the
handshake — successful or not — only happens on that branch). -/
def tookTls : ConnOutcome → Bool
  | .droppedHandshake => true
  | .served tls _ => tls
  | _ => false

/-- All listener tasks of the running instance (if any) are cancelled. -/
def tasksCancelled (s : VetisSt) : Prop :=
  ∀ h, s.inst = some h → ∀ l ∈ h.listeners, l.task = none

/-! ### Concrete fixtures for witnesses and counterexamples -/

/-- An environment with a single regular file `f` of length `len`
(metadata available, seeks succeed, MIME known for `.txt`), plus a
readable status page `p404`. -/
def oneFileEnv (f : String) (len : Nat) : Env where
  fileExists := fun p => p = f ∨ p = "p404"
  isDir := fun _ => false
  openOk := fun p => p = f ∨ p = "p404"
  meta := fun p =>
    if p = f then some ⟨len, some "Mon, 01 Jan 2024 00:00:00 +0000"⟩ else none
  seekOk := fun _ _ => true
  mime := fun n => if n = "f.txt" then some "text/plain" else none
  regexOk := fun _ => true
  extMatch := fun _ _ => false
  validHeaderName := fun _ => true
  validHeaderValue := fun _ => true
  upstream := fun _ _ _ => .error "no upstream"

/-- An environment with no files at all (and no upstream). -/
def emptyFsEnv : Env where
  fileExists := fun _ => false
  isDir := fun _ => false
  openOk := fun _ => false
  meta := fun _ => none
  seekOk := fun _ _ => true
  mime := fun _ => none
  regexOk := fun _ => true
  extMatch := fun _ _ => false
  validHeaderName := fun _ => true
  validHeaderValue := fun _ => true
  upstream := fun _ _ _ => .error "no upstream"

/-- A static path rooted at `/` over directory `d` with no index files
and no auth hook (extension pattern unused on this configuration). -/
def plainStaticCfg : StaticPathConfig := ⟨"/", ".*", "d", none, none⟩

/-- A GET request for `/f.txt` with a given `Range` header value. -/
def rangeReq (r : String) : Request :=
  ⟨"GET", "/f.txt", some (.valid "localhost"), none, [("range", r)]⟩

def getReq : Request := ⟨"GET", "/f.txt", some (.valid "localhost"), none, []⟩

def headReq : Request := ⟨"HEAD", "/f.txt", some (.valid "localhost"), none, []⟩

/-- A virtual host with a `404` status page configured at `p404`. -/
def vhWithPage : VirtualHost :=
  ⟨⟨"localhost", 9000, none, some [(404, "p404")], true⟩, []⟩

/-- A virtual host with no status pages configured. -/
def vhNoPages : VirtualHost :=
  ⟨⟨"localhost", 9000, none, none, true⟩, []⟩

/-- The missing-file scenario of the repository's `do_not_found` test:
a static path at `/` over `src/tests/files`, no index files, a `404`
status page configured, and a request for a file that does not exist. -/
def cfgNotFound : StaticPathConfig :=
  ⟨"/", ".*", "src/tests/files", none, none⟩

def vhNotFound : VirtualHost :=
  ⟨⟨"localhost", 9000, none, some [(404, "src/tests/files/404.html")], true⟩,
    [.staticPath cfgNotFound]⟩

/-- Environment for the missing-file scenario: the status page exists
and opens, the requested file does not. -/
def envNotFound : Env :=
  { emptyFsEnv with
    fileExists := fun p => p = "src/tests/files/404.html",
    openOk := fun p => p = "src/tests/files/404.html" }

def reqNotFound : Request :=
  ⟨"GET", "/some/file/here.txt", some (.valid "localhost"), none, []⟩

/-- Three handler paths whose URIs are nested prefixes. -/
def pathA : HostPath := .handlerPath "/a" (fun _ => .ok ⟨200, [], .text "one"⟩)

def pathB : HostPath := .handlerPath "/ab" (fun _ => .ok ⟨200, [], .text "two"⟩)

def pathC : HostPath :=
  .handlerPath "/abc" (fun _ => .ok ⟨200, [], .text "three"⟩)

def vhNested : VirtualHost :=
  ⟨⟨"localhost", 8080, none, none, false⟩, [pathA, pathB, pathC]⟩

def reqNested : Request :=
  ⟨"GET", "/abcd", some (.valid "localhost"), none, []⟩

/-- A virtual host with one handler at `/hello` answering
`200 "Hello from localhost"` (scenario S1 of the spec). -/
def vhHello : VirtualHost :=
  ⟨⟨"localhost", 8082, none, none, true⟩,
    [.handlerPath "/hello" (fun _ => .ok ⟨200, [], .text "Hello from localhost"⟩)]⟩

def reqHello : Request :=
  ⟨"GET", "/hello", some (.valid "localhost:8082"), none, []⟩

/-- The same request but carrying a `Host` header naming an
unregistered hostname. -/
def reqOther : Request :=
  ⟨"GET", "/hello", some (.valid "otherhost"), none, []⟩

/-! ## Lemmas about the ancestor scan of the path trie -/

theorem ancStep_of_acc_some (q : String) (b p : HostPath) :
    ∃ r, ancStep q (some b) p = some r ∧ b.uri.length ≤ r.uri.length := by
  unfold ancStep
  by_cases h : isPre p.uri q
  · simp only [h, if_true]
    by_cases h2 : b.uri.length < p.uri.length
    · exact ⟨p, by simp [h2], Nat.le_of_lt h2⟩
    · exact ⟨b, by simp [h2], Nat.le_refl _⟩
  · exact ⟨b, by simp [h], Nat.le_refl _⟩

theorem ancStep_none (q : String) (acc : Option HostPath) (p : HostPath)
    (h : ancStep q acc p = none) : acc = none ∧ isPre p.uri q = false := by
  unfold ancStep at h
  by_cases hp : isPre p.uri q
  · simp only [hp, if_true] at h
    cases acc with
    | none => simp at h
    | some b =>
      by_cases h2 : b.uri.length < p.uri.length <;> simp [h2] at h
  · cases acc with
    | none => exact ⟨rfl, by simpa [hp] using hp⟩
    | some b => simp [hp] at h

theorem ancStep_mem (q : String) (acc : Option HostPath) (p r : HostPath)
    (h : ancStep q acc p = some r) : r = p ∨ acc = some r := by
  unfold ancStep at h
  by_cases hp : isPre p.uri q
  · simp only [hp, if_true] at h
    cases acc with
    | none => exact Or.inl (Option.some.inj h).symm
    | some b =>
      by_cases h2 : b.uri.length < p.uri.length
      · simp [h2] at h; exact Or.inl h.symm
      · simp [h2] at h; exact Or.inr (by rw [h])
  · simp only [hp, if_false] at h; exact Or.inr h

theorem ancStep_matching (q : String) (acc : Option HostPath) (p r : HostPath)
    (hinv : ∀ b, acc = some b → isPre b.uri q = true)
    (h : ancStep q acc p = some r) : isPre r.uri q = true := by
  by_cases hp : isPre p.uri q
  · rcases ancStep_mem q acc p r h with h1 | h1
    · rw [h1]; exact hp
    · exact hinv r h1
  · unfold ancStep at h
    simp only [hp] at h
    exact hinv r h

theorem ancStep_acc_le (q : String) (b p r : HostPath)
    (h : ancStep q (some b) p = some r) : b.uri.length ≤ r.uri.length := by
  obtain ⟨r2, h2, hle⟩ := ancStep_of_acc_some q b p
  rw [h] at h2
  cases Option.some.inj h2
  exact hle

theorem ancStep_arg_le (q : String) (acc : Option HostPath) (p r : HostPath)
    (hp : isPre p.uri q = true) (h : ancStep q acc p = some r) :
    p.uri.length ≤ r.uri.length := by
  unfold ancStep at h
  simp only [hp, if_true] at h
  cases acc with
  | none => rw [Option.some.inj h]
  | some b =>
    by_cases h2 : b.uri.length < p.uri.length
    · simp [h2] at h; rw [h]
    · simp [h2] at h; rw [← h]; omega

theorem ancScan_of_acc_some (q : String) (ps : List HostPath) :
    ∀ b : HostPath, ∃ r, ancScan q (some b) ps = some r ∧
      b.uri.length ≤ r.uri.length := by
  induction ps with
  | nil => intro b; exact ⟨b, rfl, Nat.le_refl _⟩
  | cons p ps ih =>
    intro b
    obtain ⟨r1, h1, hle1⟩ := ancStep_of_acc_some q b p
    obtain ⟨r2, h2, hle2⟩ := ih r1
    refine ⟨r2, ?_, Nat.le_trans hle1 hle2⟩
    simpa [ancScan, h1] using h2

theorem ancScan_none (q : String) (ps : List HostPath) :
    ∀ acc, ancScan q acc ps = none →
      acc = none ∧ ∀ p ∈ ps, isPre p.uri q = false := by
  induction ps with
  | nil => intro acc h; exact ⟨h, by simp⟩
  | cons p ps ih =>
    intro acc h
    rw [ancScan] at h
    obtain ⟨hstep, hrest⟩ := ih _ h
    obtain ⟨hacc, hp⟩ := ancStep_none q acc p hstep
    exact ⟨hacc, by simpa [hp] using hrest⟩

theorem ancScan_mem (q : String) (ps : List HostPath) :
    ∀ acc r, ancScan q acc ps = some r → acc = some r ∨ r ∈ ps := by
  induction ps with
  | nil => intro acc r h; exact Or.inl h
  | cons p ps ih =>
    intro acc r h
    rw [ancScan] at h
    rcases ih _ r h with h1 | h1
    · rcases ancStep_mem q acc p r h1 with h2 | h2
      · exact Or.inr (by simp [h2])
      · exact Or.inl h2
    · exact Or.inr (by simp [h1])

theorem ancScan_matching (q : String) (ps : List HostPath) :
    ∀ acc r, (∀ b, acc = some b → isPre b.uri q = true) →
      ancScan q acc ps = some r → isPre r.uri q = true := by
  induction ps with
  | nil => intro acc r hinv h; exact hinv r h
  | cons p ps ih =>
    intro acc r hinv h
    rw [ancScan] at h
    refine ih _ r ?_ h
    intro b hb
    exact ancStep_matching q acc p b hinv hb

theorem ancScan_acc_le (q : String) (ps : List HostPath) :
    ∀ b r, ancScan q (some b) ps = some r → b.uri.length ≤ r.uri.length := by
  induction ps with
  | nil => intro b r h; rw [Option.some.inj h]
  | cons p ps ih =>
    intro b r h
    rw [ancScan] at h
    obtain ⟨r1, h1, hle1⟩ := ancStep_of_acc_some q b p
    rw [h1] at h
    exact Nat.le_trans hle1 (ih r1 r h)

theorem ancScan_max (q : String) (ps : List HostPath) :
    ∀ acc r, ancScan q acc ps = some r →
      ∀ p ∈ ps, isPre p.uri q = true → p.uri.length ≤ r.uri.length := by
  induction ps with
  | nil => intro acc r _ p hp; simp at hp
  | cons p0 ps ih =>
    intro acc r h p hp hpre
    rw [ancScan] at h
    rcases List.mem_cons.1 hp with h1 | h1
    · subst h1
      obtain ⟨r1, h1, hle1⟩ : ∃ r1, ancStep q acc p = some r1 ∧
          p.uri.length ≤ r1.uri.length := by
        cases hstep : ancStep q acc p with
        | none =>
          exact absurd (ancStep_none q acc p hstep).2 (by simp [hpre])
        | some r1 =>
          exact ⟨r1, rfl, ancStep_arg_le q acc p r1 hpre hstep⟩
      rw [h1] at h
      exact Nat.le_trans hle1 (ancScan_acc_le q ps r1 r h)
    · exact ih _ r h p h1 hpre

theorem getAncestorValue_spec (ps : List HostPath) (q : String)
    (r : HostPath) (h : getAncestorValue ps q = some r) :
    r ∈ ps ∧ isPre r.uri q = true ∧
      ∀ p ∈ ps, isPre p.uri q = true → p.uri.length ≤ r.uri.length := by
  refine ⟨?_, ?_, ancScan_max q ps none r h⟩
  · rcases ancScan_mem q ps none r h with h1 | h1
    · simp at h1
    · exact h1
  · exact ancScan_matching q ps none r (by simp) h

theorem getAncestorValue_isSome (ps : List HostPath) (q : String)
    (p : HostPath) (hp : p ∈ ps) (hpre : isPre p.uri q = true) :
    ∃ r, getAncestorValue ps q = some r := by
  cases h : getAncestorValue ps q with
  | none =>
    have := (ancScan_none q ps none h).2 p hp
    simp [hpre] at this
  | some r => exact ⟨r, rfl⟩

theorem getAncestorValue_none (ps : List HostPath) (q : String)
    (h : ∀ p ∈ ps, isPre p.uri q = false) : getAncestorValue ps q = none := by
  cases hg : getAncestorValue ps q with
  | none => rfl
  | some r =>
    obtain ⟨hmem, hpre, _⟩ := getAncestorValue_spec ps q r hg
    simpa [hpre] using h r hmem

/-! ## Claim C10 -/

/-- C10: for requests to an existing static file whose `Range` header is
malformed — no `=` separator, no `-` between the bounds, or an empty or
non-numeric bound such as `bytes=0-` or `bytes=-100` — static-file
handling panics (`unwrap` on `split_once` or on `parse::<u64>`) instead
of returning an error or an HTTP error response; shown both at the
`serve_file` level and end-to-end through `StaticPath::handle`. -/
theorem malformed_range_crashes :
    serveFile (oneFileEnv "d/f.txt" 100) "d/f.txt" (some "0-5") = .crash ∧
    serveFile (oneFileEnv "d/f.txt" 100) "d/f.txt" (some "bytes=05") = .crash ∧
    serveFile (oneFileEnv "d/f.txt" 100) "d/f.txt" (some "bytes=0-") = .crash ∧
    serveFile (oneFileEnv "d/f.txt" 100) "d/f.txt" (some "bytes=-100") =
      .crash ∧
    serveFile (oneFileEnv "d/f.txt" 100) "d/f.txt" (some "bytes=a-b") =
      .crash ∧
    staticHandle (oneFileEnv "d/f.txt" 100) plainStaticCfg
      (rangeReq "bytes=0-") "/f.txt" = .crash := by
  decide

/-! ## Claim C2 -/

/-- C2 counterexample: against the 100-byte file, `Range: bytes=0-0` has
numeric bounds with `start ≤ end` and `start < length`, so the claim
demands a 206 from offset 0 — but the source falls through to the plain
`200` full-file response (the 206 branch requires `start < end`
strictly). -/
theorem single_byte_range_not_206 :
    ¬(0 > 0 ∨ 0 ≥ 100) ∧
    serveFile (oneFileEnv "d/f.txt" 100) "d/f.txt" (some "bytes=0-0") =
      .ok (fullFileResponse "d/f.txt" 100) ∧
    serveFile (oneFileEnv "d/f.txt" 100) "d/f.txt" (some "bytes=0-0") ≠
      .ok (resp206 "d/f.txt" 0) ∧
    staticHandle (oneFileEnv "d/f.txt" 100) plainStaticCfg
      (rangeReq "bytes=0-0") "/f.txt" =
      .ok (fullFileResponse "d/f.txt" 100) := by
  decide

/-- C2 amended: for an existing static file of length `L` and a parsed
range `bytes=<start>-<end>` with both bounds numeric, the response is
416 iff `start > end` or `start ≥ L`; it is 206 streaming from offset
`start` iff moreover `start < end` and `end < L`; in the remaining
well-formed cases (`start = end`, or `end ≥ L` with `start ≤ end` and
`start < L`) it is the plain 200 full-file response. -/
theorem serveFile_range_characterization (env : Env) (f r : String)
    (s e L : Nat)
    (ho : env.openOk f = true)
    (hL : ((env.meta f).map FileMeta.len).getD 0 = L)
    (hp : parseRangeHeader r = .bounds s e)
    (hs : env.seekOk f s = true) :
    (serveFile env f (some r) = .ok resp416 ↔ (s > e ∨ s ≥ L)) ∧
    (serveFile env f (some r) = .ok (resp206 f s) ↔
      (¬(s > e ∨ s ≥ L) ∧ s < e ∧ e < L)) ∧
    ((¬(s > e ∨ s ≥ L) ∧ ¬(s < e ∧ e < L)) →
      serveFile env f (some r) = .ok (fullFileResponse f L)) := by
  have hsf : serveFile env f (some r) =
      if s > e ∨ s ≥ L then .ok resp416
      else if s < e ∧ e < L then .ok (resp206 f s)
      else .ok (fullFileResponse f L) := by
    simp only [serveFile, ho, hL, hp, hs, if_true]
  rw [hsf]
  by_cases h1 : s > e ∨ s ≥ L
  · simp [h1, resp416, resp206, fullFileResponse]
  · by_cases h2 : s < e ∧ e < L
    · simp [h1, h2, resp416, resp206, fullFileResponse]
    · simp [h1, h2, resp416, resp206, fullFileResponse]

/-- C2 witness: the spec's own example — `bytes=0-9` against a 100-byte
file — yields 206 from offset 0, and `bytes=200-300` yields 416. -/
theorem serveFile_range_characterization_witness :
    serveFile (oneFileEnv "d/f.txt" 100) "d/f.txt" (some "bytes=0-9") =
      .ok (resp206 "d/f.txt" 0) ∧
    serveFile (oneFileEnv "d/f.txt" 100) "d/f.txt" (some "bytes=200-300") =
      .ok resp416 := by
  constructor
  · exact ((serveFile_range_characterization (oneFileEnv "d/f.txt" 100)
      "d/f.txt" "bytes=0-9" 0 9 100 (by decide) (by decide) (by decide)
      (by decide)).2.1).mpr (by decide)
  · exact ((serveFile_range_characterization (oneFileEnv "d/f.txt" 100)
      "d/f.txt" "bytes=200-300" 200 300 100 (by decide) (by decide)
      (by decide) (by decide)).1).mpr (by decide)

/-! ## Claim C1 -/

/-- C1 counterexample: with a `404` page configured at an existing,
readable path, `serve_status_page(404)` answers with status `200` (the
file's bytes), not `404`; and with no page configured it answers with
status `404` and body `Not found`, not `200`. Both branches are the
opposite of the claimed statuses. -/
theorem serveStatusPage_counterexample :
    serveStatusPage (oneFileEnv "d/f.txt" 100) vhWithPage 404 =
      .ok ⟨200, [], .fileFrom "p404" 0⟩ ∧
    statusOf (serveStatusPage (oneFileEnv "d/f.txt" 100) vhWithPage 404) ≠
      some 404 ∧
    serveStatusPage (oneFileEnv "d/f.txt" 100) vhNoPages 404 =
      .ok ⟨404, [], .text "Not found"⟩ ∧
    statusOf (serveStatusPage (oneFileEnv "d/f.txt" 100) vhNoPages 404) ≠
      some 200 := by
  decide

/-- C1 amended: for a valid status code `S`, when a status page is
configured for `S` and the file exists and opens, the response is
status `200` streaming the file's bytes; in every other case the
response is status `S` with the plain text `Not found`. -/
theorem serveStatusPage_characterization (env : Env) (vh : VirtualHost)
    (status : Nat) (hv : validStatus status = true) :
    serveStatusPage env vh status =
      .ok (match statusPageOf vh status with
        | some page =>
          if env.fileExists page && env.openOk page then
            ⟨200, [], .fileFrom page 0⟩
          else ⟨status, [], .text "Not found"⟩
        | none => ⟨status, [], .text "Not found"⟩) := by
  unfold serveStatusPage statusPageOf
  rw [hv]
  cases hsp : vh.config.statusPages with
  | none => simp
  | some pages =>
    cases hpl : pageLookup pages status with
    | none => simp [hpl]
    | some page =>
      by_cases he : env.fileExists page
      · by_cases hoo : env.openOk page
        · simp [hpl, he, hoo]
        · simp [hpl, he, hoo]
      · simp [hpl, he]

/-- C1 witness: the characterization applied at code 404 with a
configured, readable page and again with no pages configured. -/
theorem serveStatusPage_characterization_witness :
    serveStatusPage (oneFileEnv "d/f.txt" 100) vhWithPage 404 =
      .ok ⟨200, [], .fileFrom "p404" 0⟩ ∧
    serveStatusPage (oneFileEnv "d/f.txt" 100) vhNoPages 404 =
      .ok ⟨404, [], .text "Not found"⟩ := by
  constructor
  · rw [serveStatusPage_characterization (oneFileEnv "d/f.txt" 100)
      vhWithPage 404 (by decide)]
    decide
  · rw [serveStatusPage_characterization (oneFileEnv "d/f.txt" 100)
      vhNoPages 404 (by decide)]
    decide

/-! ## Claim C3 -/

/-- C3 (code divergence): the repository's `do_not_found` scenario — a
static path at `/` over a directory without the requested file, no
index files, a `404` status page configured and readable. The router
catches only `InvalidPath` errors, so the `File(NotFound)` error is not
mapped to a 404 status-page response: it propagates out of `route` and
out of `process_request`, failing the connection-level service future
instead of producing an HTTP 404. -/
theorem file_not_found_error_propagates :
    staticHandle envNotFound cfgNotFound reqNotFound "some/file/here.txt" =
      .err (.virtualHost (.file .notFound)) ∧
    route envNotFound vhNotFound reqNotFound =
      .err (.virtualHost (.file .notFound)) ∧
    processRequest envNotFound (addVirtualHost [] vhNotFound) 9000
      reqNotFound = .err (.virtualHost (.file .notFound)) ∧
    statusOf (processRequest envNotFound (addVirtualHost [] vhNotFound) 9000
      reqNotFound) = none := by
  decide

/-! ## Claim C4 -/

/-- C4 counterexample: the trie holds `/a`, `/ab` and `/abc`; with
`P₁ = /a` a proper prefix of `P₂ = /ab` and a request path `/abcd`
extending `P₂`, the request is handled by the entry at `/abc` — its
handler's response `three` is returned, not the response `two` of the
handler registered at `P₂` — so "handled by the path registered at
`P₂`" fails (only "never `P₁`" holds). -/
theorem route_nested_trie_counterexample :
    isPre "/a" "/ab" = true ∧ "/a" ≠ "/ab" ∧
    isPre "/ab" "/abcd" = true ∧
    route emptyFsEnv vhNested reqNested = .ok ⟨200, [], .text "three"⟩ ∧
    route emptyFsEnv vhNested reqNested ≠ .ok ⟨200, [], .text "two"⟩ ∧
    route emptyFsEnv vhNested reqNested ≠ .ok ⟨200, [], .text "one"⟩ := by
  decide

/-- C4 amended: the router dispatches to the entry whose URI is the
longest prefix of the request path present in the trie — so an entry
`P₂` that is a prefix of the request path is never shadowed by a proper
prefix `P₁` of it (the chosen URI is at least as long as `P₂`, hence
never equal to any strictly shorter `P₁`), the handler receives
`tail = path.strip_prefix(chosen URI)` (the whole path if stripping
fails), and a request path with no ancestor in the trie yields
`404 "Not Found"`. -/
theorem route_longest_match (env : Env) (vh : VirtualHost) (req : Request)
    (p2 : HostPath) (hmem : p2 ∈ vh.paths)
    (hpre : isPre p2.uri req.path = true) :
    (∃ p, getAncestorValue vh.paths req.path = some p ∧
      p ∈ vh.paths ∧ isPre p.uri req.path = true ∧
      p2.uri.length ≤ p.uri.length ∧
      route env vh req = dispatchEntry env vh req p ∧
      (∀ p1 ∈ vh.paths, p1.uri.length < p2.uri.length → p.uri ≠ p1.uri)) ∧
    (∀ req2 : Request, (∀ p ∈ vh.paths, isPre p.uri req2.path = false) →
      route env vh req2 = .ok ⟨404, [], .text "Not Found"⟩) := by
  constructor
  · obtain ⟨p, hga⟩ :=
      getAncestorValue_isSome vh.paths req.path p2 hmem hpre
    obtain ⟨hp_mem, hp_pre, hp_max⟩ :=
      getAncestorValue_spec vh.paths req.path p hga
    have hlen : p2.uri.length ≤ p.uri.length := hp_max p2 hmem hpre
    refine ⟨p, hga, hp_mem, hp_pre, hlen, ?_, ?_⟩
    · unfold route
      rw [hga]
    · intro p1 _ hshort hcontra
      have : p.uri.length = p1.uri.length := by rw [hcontra]
      omega
  · intro req2 hnone
    unfold route
    rw [getAncestorValue_none vh.paths req2.path hnone]

/-- C4 witness: the amended theorem applied to the nested trie at
`P₂ = /ab` for request `/abcd`; the dispatched entry is the one at
`/abc`, and the response is its handler's. -/
theorem route_longest_match_witness :
    route emptyFsEnv vhNested reqNested = .ok ⟨200, [], .text "three"⟩ := by
  obtain ⟨⟨p, hga, _, _, _, hroute, _⟩, _⟩ :=
    route_longest_match emptyFsEnv vhNested reqNested pathB
      (List.Mem.tail _ (List.Mem.head _)) (by decide)
  have hc : getAncestorValue vhNested.paths reqNested.path = some pathC := rfl
  rw [hga] at hc
  rw [hroute, Option.some.inj hc]
  rfl

/-! ## Claim C5 -/

/-- C5: a request whose effective authority and listener port match a
registered virtual host is dispatched to that host's router (with the
host's default headers spliced into the response afterwards); when no
virtual host matches `(authority, port)` the dispatcher answers
`404 "Virtual host not found"`; and `add_virtual_host` registers under
the `(hostname, port)` key that the lookup uses. -/
theorem processRequest_dispatch (env : Env) (vhosts : VHosts) (port : Nat)
    (req : Request) (host : String) (vh : VirtualHost)
    (hh : effectiveHost req = some host)
    (hl : vhLookup vhosts host port = some vh) :
    processRequest env vhosts port req =
      afterRoute env vh (route env vh req) ∧
    (∀ (req2 : Request) (host2 : String), effectiveHost req2 = some host2 →
      vhLookup vhosts host2 port = none →
      processRequest env vhosts port req2 =
        .ok ⟨404, [], .text "Virtual host not found"⟩) ∧
    (∀ (m : VHosts) (vh2 : VirtualHost),
      vhLookup (addVirtualHost m vh2) vh2.config.hostname vh2.config.port =
        some vh2) := by
  refine ⟨?_, ?_, ?_⟩
  · simp only [processRequest, hh, hl]
  · intro req2 host2 h1 h2
    simp only [processRequest, h1, h2]
  · intro m vh2
    unfold vhLookup addVirtualHost
    rw [List.find?_cons_of_pos]
    simp

/-- C5 witness: the spec's scenario S1 — virtual host `localhost:8082`
with a handler at `/hello`; a request with `Host: localhost:8082`
reaching the listener at port 8082 is routed to that host and answers
`200 "Hello from localhost"`; a request whose authority names an
unregistered hostname finds no virtual host and yields `404 "Virtual host not found"`. -/
theorem processRequest_dispatch_witness :
    processRequest emptyFsEnv (addVirtualHost [] vhHello) 8082 reqHello =
      .ok ⟨200, [], .text "Hello from localhost"⟩ ∧
    processRequest emptyFsEnv (addVirtualHost [] vhHello) 8082 reqOther =
      .ok ⟨404, [], .text "Virtual host not found"⟩ := by
  constructor
  · have h := (processRequest_dispatch emptyFsEnv (addVirtualHost [] vhHello)
      8082 reqHello "localhost" vhHello rfl rfl).1
    rw [h]
    rfl
  · have h := (processRequest_dispatch emptyFsEnv (addVirtualHost [] vhHello)
      8082 reqHello "localhost" vhHello rfl rfl).2.1
    exact h reqOther "otherhost" rfl rfl

/-! ## Claim C6 -/

/-- C6 counterexample: for the same existing file served by a static
path, `HEAD` answers `200` with an empty body but its headers are
`Content-Length`, `Last-Modified` and `Content-Type` — not the `GET`
headers, which are `Accept-Ranges: bytes` and `Content-Length`; the
header lists differ (`Accept-Ranges` is absent from the `HEAD`
response). -/
theorem head_headers_differ_from_get :
    staticHandle (oneFileEnv "d/f.txt" 100) plainStaticCfg getReq "/f.txt" =
      .ok (fullFileResponse "d/f.txt" 100) ∧
    staticHandle (oneFileEnv "d/f.txt" 100) plainStaticCfg headReq "/f.txt" =
      .ok ⟨200,
        [("content-length", "100"),
         ("last-modified", "Mon, 01 Jan 2024 00:00:00 +0000"),
         ("content-type", "text/plain")], .text ""⟩ ∧
    (fullFileResponse "d/f.txt" 100).headers ≠
      [("content-length", "100"),
       ("last-modified", "Mon, 01 Jan 2024 00:00:00 +0000"),
       ("content-type", "text/plain")] := by
  decide

/-- C6 amended: a `HEAD` request for an existing static file returns
status `200` with an empty body; its headers are `Content-Length`, the
RFC 2822 `Last-Modified` date, and `Content-Type` when the MIME table
knows the filename — a different header set from the corresponding
`GET`, whose headers are `Accept-Ranges: bytes` and `Content-Length`. -/
theorem serveMetadata_headers (env : Env) (f : String) (L : Nat)
    (d fn ct : String)
    (hm : env.meta f = some ⟨L, some d⟩)
    (hfn : fileName f = some fn)
    (hmime : env.mime fn = some ct)
    (ho : env.openOk f = true) :
    serveMetadata env f =
      .ok ⟨200, [("content-length", toString L), ("last-modified", d),
        ("content-type", ct)], .text ""⟩ ∧
    serveFile env f none = .ok (fullFileResponse f L) ∧
    ("accept-ranges", "bytes") ∈ (fullFileResponse f L).headers ∧
    ("accept-ranges", "bytes") ∉
      ([("content-length", toString L), ("last-modified", d),
        ("content-type", ct)] : List (String × String)) := by
  refine ⟨?_, ?_, ?_, ?_⟩
  · simp only [serveMetadata, hm, hfn, hmime]
    rfl
  · simp only [serveFile, ho, hm, if_true]
    rfl
  · simp [fullFileResponse]
  · simp

/-- C6 witness: the amended statement at the concrete 100-byte
`d/f.txt`. -/
theorem serveMetadata_headers_witness :
    serveMetadata (oneFileEnv "d/f.txt" 100) "d/f.txt" =
      .ok ⟨200,
        [("content-length", "100"),
         ("last-modified", "Mon, 01 Jan 2024 00:00:00 +0000"),
         ("content-type", "text/plain")], .text ""⟩ := by
  have h := (serveMetadata_headers (oneFileEnv "d/f.txt" 100) "d/f.txt" 100
    "Mon, 01 Jan 2024 00:00:00 +0000" "f.txt" "text/plain"
    (by decide) (by decide) (by decide) (by decide)).1
  exact h

/-! ## Claim C7 -/

/-- C7 (code divergence): a connection whose peek yields fewer than
sixteen bytes makes `handle_connections` panic — the `unwrap` on
`peek_exact` — rather than dropping the connection with a log entry
and continuing the accept loop as the claim requires. -/
theorem short_peek_crashes (proto : Protocol) (c : Conn)
    (hn : c.nodelayOk = true) (h : c.avail.length < 16) :
    handleConn proto c = .crash := by
  simp [handleConn, hn, h]

/-- C7 witness: a client that sent only the three bytes `GET` before
EOF panics the accept loop. -/
theorem short_peek_crashes_witness :
    handleConn .http1 ⟨true, [0x47, 0x45, 0x54], true⟩ = .crash :=
  short_peek_crashes .http1 ⟨true, [0x47, 0x45, 0x54], true⟩ rfl (by decide)

/-! ## Claim C8 -/

/-- C8 counterexample: starting a server (one virtual host, one
listener) and stopping it twice — the second `stop()` succeeds instead
of failing with `NoInstances`, because `Vetis::stop` never clears
`self.instance`. -/
theorem second_stop_not_noInstances :
    (vetisStart ⟨1, 1, none⟩).2 = .ok ∧
    (vetisStop (vetisStart ⟨1, 1, none⟩).1).2 = .ok ∧
    (vetisStop (vetisStop (vetisStart ⟨1, 1, none⟩).1).1).2 = .ok ∧
    (vetisStop (vetisStop (vetisStart ⟨1, 1, none⟩).1).1).2 ≠
      .fail VetisError.noInstances := by
  decide

/-- C8 amended: `stop()` fails with `NoInstances` exactly when no
`start()` has installed an instance yet; after a successful `start()`,
`stop()` cancels every listener task and returns `Ok` — and, since the
instance is kept, every later `stop()` also returns `Ok` rather than
`NoInstances`. -/
theorem stop_lifecycle (s : VetisSt) (hv : s.nVhosts ≠ 0) :
    (vetisStart s).2 = .ok ∧
    (vetisStop (vetisStart s).1).2 = .ok ∧
    tasksCancelled (vetisStop (vetisStart s).1).1 ∧
    (vetisStop (vetisStop (vetisStart s).1).1).2 = .ok ∧
    (∀ t : VetisSt, t.inst = none → (vetisStop t).2 = .fail .noInstances) := by
  refine ⟨?_, ?_, ?_, ?_, ?_⟩
  · simp [vetisStart, hv]
  · simp [vetisStart, hv, vetisStop, serverStop]
  · intro hsrv hinst l hl
    have hi : (vetisStop (vetisStart s).1).1.inst =
        some ⟨(List.replicate s.nListeners (⟨some ()⟩ : ListenerSt)).map
          (fun l => (listenerStop l).1)⟩ := by
      simp [vetisStart, hv, vetisStop, serverStop]
    rw [hi] at hinst
    cases Option.some.inj hinst
    rcases List.mem_map.1 hl with ⟨x, _, hx⟩
    rw [← hx]
    rfl
  · simp [vetisStart, hv, vetisStop, serverStop]
  · intro t ht
    simp [vetisStop, ht]

/-- C8 witness: the lifecycle statement at one virtual host and one
listener; in particular `stop()` before any `start()` fails with
`NoInstances`. -/
theorem stop_lifecycle_witness :
    (vetisStop (vetisStart ⟨1, 1, none⟩).1).2 = .ok ∧
    (vetisStop ⟨1, 1, none⟩).2 = .fail .noInstances := by
  have h := stop_lifecycle ⟨1, 1, none⟩ (by decide)
  exact ⟨h.2.1, h.2.2.2.2 ⟨1, 1, none⟩ rfl⟩

/-! ## Claim C9 -/

theorem listStarts_pair (a b : Nat) (l : List Nat) :
    listStarts [a, b] l = true ↔ l.take 2 = [a, b] := by
  match l with
  | [] => simp [listStarts]
  | [x] => simp [listStarts]
  | x :: y :: rest =>
    have ht : (x :: y :: rest).take 2 = [x, y] := rfl
    rw [ht]
    simp only [listStarts, Bool.and_eq_true, decide_eq_true_eq,
      List.cons.injEq, and_true]
    constructor
    · rintro ⟨h1, h2⟩
      exact ⟨h1.symm, h2.symm⟩
    · rintro ⟨h1, h2⟩
      exact ⟨h1.symm, h2.symm⟩

/-- C9: on a connection where sixteen bytes were successfully peeked
(after `TCP_NODELAY` was set), the TLS branch — handshake, then serve —
is taken iff the first two peeked bytes are `0x16 0x03`; with a
successful handshake the stream is served over TLS, otherwise it is
served as cleartext, in both cases by the driver selected by the
listener's configured protocol. -/
theorem tls_branch_iff (proto : Protocol) (c : Conn)
    (hn : c.nodelayOk = true) (h : 16 ≤ c.avail.length) :
    (tookTls (handleConn proto c) = true ↔ c.avail.take 2 = [0x16, 0x03]) ∧
    (c.avail.take 2 = [0x16, 0x03] → c.handshakeOk = true →
      handleConn proto c = .served true (driverOf proto)) ∧
    (c.avail.take 2 ≠ [0x16, 0x03] →
      handleConn proto c = .served false (driverOf proto)) := by
  have hlt : ¬(c.avail.length < 16) := by omega
  have htake : (c.avail.take 16).take 2 = c.avail.take 2 := by
    rw [List.take_take]
    norm_num
  have hc : handleConn proto c =
      if listStarts [0x16, 0x03] (c.avail.take 16) then
        if c.handshakeOk then .served true (driverOf proto)
        else .droppedHandshake
      else .served false (driverOf proto) := by
    simp [handleConn, hn, hlt]
  by_cases ht : c.avail.take 2 = [0x16, 0x03]
  · have hs : listStarts [0x16, 0x03] (c.avail.take 16) = true := by
      rw [listStarts_pair, htake]
      exact ht
    refine ⟨?_, ?_, ?_⟩
    · rw [hc, hs]
      cases hhs : c.handshakeOk <;> simp [tookTls, ht]
    · intro _ hhs
      rw [hc, hs, hhs]
      simp
    · intro hcontra
      exact absurd ht hcontra
  · have hs : listStarts [0x16, 0x03] (c.avail.take 16) = false := by
      rw [Bool.eq_false_iff]
      intro hcontra
      rw [listStarts_pair, htake] at hcontra
      exact ht hcontra
    refine ⟨?_, ?_, ?_⟩
    · rw [hc, hs]
      simp [tookTls, ht]
    · intro hcontra
      exact absurd hcontra ht
    · intro _
      rw [hc, hs]
      simp

/-- C9 witness: a sixteen-byte peek starting `0x16 0x03` on an HTTP/1
listener is served over TLS by the HTTP/1 driver; a peek starting with
ASCII `GE` is served as cleartext by the same driver. -/
theorem tls_branch_iff_witness :
    handleConn .http1
      ⟨true, [0x16, 0x03, 1, 0, 0, 0, 0, 0, 0, 0, 0, 0, 0, 0, 0, 0], true⟩ =
      .served true .http1Conn ∧
    handleConn .http1
      ⟨true, [0x47, 0x45, 0x54, 0x20, 0x2f, 0x20, 0x48, 0x54, 0x54, 0x50,
        0x2f, 0x31, 0x2e, 0x31, 0x0d, 0x0a], true⟩ =
      .served false .http1Conn := by
  constructor
  · exact (tls_branch_iff .http1
      ⟨true, [0x16, 0x03, 1, 0, 0, 0, 0, 0, 0, 0, 0, 0, 0, 0, 0, 0], true⟩
      rfl (by decide)).2.1 (by decide) rfl
  · exact (tls_branch_iff .http1
      ⟨true, [0x47, 0x45, 0x54, 0x20, 0x2f, 0x20, 0x48, 0x54, 0x54, 0x50,
        0x2f, 0x31, 0x2e, 0x31, 0x0d, 0x0a], true⟩
      rfl (by decide)).2.2 (by decide)

end Vetis
